import Mathlib

/-!
Shallow embedding of `src/client.rs` (crate `ovh`, module `client`): a signed
OVH API client.  Pure functions of the source are translated directly; the
network, the system clock and the configuration parser are passed in
explicitly (`World`, `Conf`).  Machine integers (`u64`, `i64`) are modelled by
`Nat`/`Int` with explicit reductions modulo `2 ^ 64` where the source wraps.
-/

namespace Ovh

/-! ### Bytes of a Rust `String`: UTF-8 encoding (RFC 3629). -/

/-- UTF-8 bytes of one scalar value, as `Nat`s below 256. -/
def charUtf8 (c : Char) : List Nat :=
  let n := c.toNat
  if n < 128 then [n]
  else if n < 2048 then [192 + n / 64, 128 + n % 64]
  else if n < 65536 then [224 + n / 4096, 128 + n / 64 % 64, 128 + n % 64]
  else [240 + n / 262144, 128 + n / 4096 % 64, 128 + n / 64 % 64, 128 + n % 64]

/-- The byte sequence of a Rust `String`/`&str`. -/
def utf8Bytes (s : String) : List Nat :=
  s.data.flatMap charUtf8

/-! ### SHA-1 (FIPS 180-1), the hash the `sha1` crate computes.
The crate is an external dependency of the source; its `hexdigest` is the
lowercase-hex SHA-1 digest of the input string's UTF-8 bytes. -/

/-- `2 ^ 32`, the modulus of the 32-bit words SHA-1 works on. -/
def w32 : Nat := 4294967296

/-- Left rotation of a 32-bit word. -/
def rotl32 (k x : Nat) : Nat :=
  ((x <<< k) ||| (x >>> (32 - k))) % w32

/-- Big-endian bytes of a value, `n` bytes wide. -/
def beBytes (n v : Nat) : List Nat :=
  (List.range n).map (fun i => v >>> (8 * (n - 1 - i)) % 256)

/-- SHA-1 message padding: `0x80`, zeros to 56 mod 64, 8-byte bit length. -/
def sha1Pad (msg : List Nat) : List Nat :=
  msg ++ [128] ++ List.replicate ((119 - msg.length % 64) % 64) 0
      ++ beBytes 8 (8 * msg.length)

/-- Big-endian 32-bit words from bytes. -/
def toWords (bs : List Nat) : List Nat :=
  (List.range (bs.length / 4)).map (fun i =>
    ((bs.getD (4 * i) 0 * 256 + bs.getD (4 * i + 1) 0) * 256
      + bs.getD (4 * i + 2) 0) * 256 + bs.getD (4 * i + 3) 0)

/-- Split a word list into 16-word blocks. -/
def chunk16 (ws : List Nat) : List (List Nat) :=
  (List.range (ws.length / 16)).map (fun i => (ws.drop (16 * i)).take 16)

/-- The 80-word message schedule of one block. -/
def schedule (ws : List Nat) : List Nat :=
  (List.range 64).foldl
    (fun a _ =>
      let i := a.length
      a ++ [rotl32 1 ((a.getD (i - 3) 0) ^^^ (a.getD (i - 8) 0)
        ^^^ (a.getD (i - 14) 0) ^^^ (a.getD (i - 16) 0))])
    ws

/-- The round function `f_t` of SHA-1. -/
def sha1F (t b c d : Nat) : Nat :=
  if t < 20 then (b &&& c) ||| ((b ^^^ (w32 - 1)) &&& d)
  else if t < 40 then b ^^^ c ^^^ d
  else if t < 60 then (b &&& c) ||| (b &&& d) ||| (c &&& d)
  else b ^^^ c ^^^ d

/-- The round constant `K_t` of SHA-1. -/
def sha1K (t : Nat) : Nat :=
  if t < 20 then 1518500249
  else if t < 40 then 1859775393
  else if t < 60 then 2400959708
  else 3395469782

/-- Compression of one 16-word block into the running state. -/
def sha1Block (h : Nat × Nat × Nat × Nat × Nat) (ws : List Nat) :
    Nat × Nat × Nat × Nat × Nat :=
  let W := schedule ws
  let s := (List.range 80).foldl
    (fun (st : Nat × Nat × Nat × Nat × Nat) t =>
      let tmp := (rotl32 5 st.1 + sha1F t st.2.1 st.2.2.1 st.2.2.2.1
        + st.2.2.2.2 + sha1K t + W.getD t 0) % w32
      (tmp, st.1, rotl32 30 st.2.1, st.2.2.1, st.2.2.2.1))
    h
  ((h.1 + s.1) % w32, (h.2.1 + s.2.1) % w32, (h.2.2.1 + s.2.2.1) % w32,
    (h.2.2.2.1 + s.2.2.2.1) % w32, (h.2.2.2.2 + s.2.2.2.2) % w32)

/-- The SHA-1 digest of a byte sequence, as a 160-bit number. -/
def sha1Nat (msg : List Nat) : Nat :=
  let f := (chunk16 (toWords (sha1Pad msg))).foldl sha1Block
    (1732584193, 4023233417, 2562383102, 271733878, 3285377520)
  (((f.1 * w32 + f.2.1) * w32 + f.2.2.1) * w32 + f.2.2.2.1) * w32 + f.2.2.2.2

/-- Lowercase hex digit for a value below 16. -/
def hexDigit (n : Nat) : Char :=
  if n < 10 then Char.ofNat (48 + n) else Char.ofNat (87 + n)

/-- Fixed-width lowercase hex rendering, most significant digit first. -/
def hexFixed : Nat → Nat → List Char
  | 0, _ => []
  | k + 1, v => hexFixed k (v / 16) ++ [hexDigit (v % 16)]

/-- The `hexdigest` of the `sha1` crate: 40 lowercase hex characters. -/
def sha1HexStr (s : String) : String :=
  String.mk (hexFixed 40 (sha1Nat (utf8Bytes s)))

/-! ### Decimal rendering, the model of `i64::to_string`. -/

/-- Decimal digits of `n`, most significant first; the fuel (first argument)
is the bound on the number of digits, `[]` for zero. -/
def natDecCharsAux : Nat → Nat → List Char
  | 0, _ => []
  | fuel + 1, n => if n = 0 then [] else natDecCharsAux fuel (n / 10) ++ [hexDigit (n % 10)]

/-- Decimal rendering of a `Nat` (`n` itself bounds the digit count). -/
def natDecString (n : Nat) : String :=
  if n = 0 then "0" else String.mk (natDecCharsAux n n)

/-- Decimal rendering of an `Int`: Rust's `i64::to_string`. -/
def intDecString (i : Int) : String :=
  if i < 0 then "-" ++ natDecString i.natAbs else natDecString i.natAbs

/-! ### 64-bit integer helpers. -/

/-- `2 ^ 64`. -/
def u64Mod : Nat := 18446744073709551616

/-- `2 ^ 63`. -/
def i64Lim : Nat := 9223372036854775808

/-- Wrapping `u64` subtraction, the release-profile meaning of `a - b`
(in the debug profile the same underflow panics instead; either way the
mathematical difference is lost when `b > a`). -/
def u64SubWrap (a b : Nat) : Nat :=
  (a % u64Mod + u64Mod - b % u64Mod) % u64Mod

/-- `i64::try_from(u64)`: succeeds exactly when the value is at most
`i64::MAX`. -/
def i64OfU64 (n : Nat) : Option Int :=
  if n < i64Lim then some (n : Int) else none

/-- Wrapping `i64` addition, the release-profile meaning of `a + b`. -/
def i64AddWrap (a b : Int) : Int :=
  (a + b + (i64Lim : Int)) % (u64Mod : Int) - (i64Lim : Int)

/-! ### Outcomes: a call of the source either panics (an `unwrap` fails),
returns `Err`, or returns `Ok`. -/

inductive Outcome (α : Type) where
  | panic : Outcome α
  | err : Outcome α
  | ok : α → Outcome α
deriving DecidableEq

/-- Whether the outcome is `Ok`. -/
def Outcome.isOk {α : Type} : Outcome α → Bool
  | .ok _ => true
  | _ => false

/-- Rust's `?` operator: propagate a panic or an `Err`, continue on `Ok`. -/
def Outcome.bind {α β : Type} (o : Outcome α) (f : α → Outcome β) : Outcome β :=
  match o with
  | .panic => .panic
  | .err => .err
  | .ok a => f a

/-- `?` applied to a fallible library call modelled as an `Option`:
`none` becomes `Err` (the source converts each such error into its own
`Error` type). -/
def optErr {α : Type} : Option α → Outcome α
  | none => .err
  | some a => .ok a

/-! ### Headers: the model of `reqwest::header::HeaderMap`. -/

/-- A header map as a list of name/value pairs. -/
abbrev Headers := List (String × String)

/-- The byte set `http::HeaderValue::from_str` accepts: horizontal tab, or
a visible or high byte other than DEL.  A character outside it makes
`from_str` return `Err`, which the source unwraps — a panic. -/
def validHeaderValue (s : String) : Bool :=
  s.data.all (fun c => c.toNat == 9 || (32 ≤ c.toNat && c.toNat != 127))

/-- `HeaderMap::insert`: replaces any value stored under the name. -/
def headerInsert (hs : Headers) (name value : String) : Headers :=
  hs.filter (fun p => p.1 ≠ name) ++ [(name, value)]

/-- Value under a name, if present. -/
def headerGet (hs : Headers) (name : String) : Option String :=
  hs.lookup name

/-- `insert_sensitive_header` (client.rs 64-72): builds the header value
with `HeaderValue::from_str(value).unwrap()` — a panic on an invalid
value — marks it sensitive, and inserts it. -/
def insert_sensitive_header (hs : Headers) (name value : String) : Outcome Headers :=
  if validHeaderValue value then .ok (headerInsert hs name value) else .panic

/-! ### The endpoint registry (client.rs 52-60). -/

/-- The `phf` map `ENDPOINTS`. -/
def ENDPOINTS : List (String × String) :=
  [("ovh-eu", "https://eu.api.ovh.com/1.0"),
   ("ovh-us", "https://api.us.ovhcloud.com/1.0"),
   ("ovh-ca", "https://ca.api.ovh.com/1.0"),
   ("kimsufi-eu", "https://eu.api.kimsufi.com/1.0"),
   ("kimsufi-ca", "https://ca.api.kimsufi.com/1.0"),
   ("soyoustart-eu", "https://eu.api.soyoustart.com/1.0"),
   ("soyoustart-ca", "https://ca.api.soyoustart.com/1.0")]

/-- `ENDPOINTS.get`. -/
def endpointsGet (k : String) : Option String :=
  ENDPOINTS.lookup k

/-! ### The client (client.rs 83-127). -/

/-- `OvhClient`: the resolved base URL and the three credential strings
(the `reqwest::Client` transport handle carries no data the model needs). -/
structure OvhClient where
  endpoint : String
  application_key : String
  application_secret : String
  consumer_key : String
deriving DecidableEq

/-- `OvhClient::new` (client.rs 107-127): `None` exactly on a registry miss;
no I/O is modelled because the source performs none here. -/
def OvhClient.new (endpoint application_key application_secret consumer_key : String) :
    Option OvhClient :=
  (endpointsGet endpoint).map (fun ep =>
    { endpoint := ep, application_key, application_secret, consumer_key })

/-- The key/value view `configparser::ini::Ini` gives of a loaded file:
section name, then key name, to the stored value. -/
def Conf : Type := String → String → Option String

/-- `OvhClient::from_conf` (client.rs 148-178).  The argument is the result
of `Ini::load`: `Except.error e` when the file cannot be opened or parsed
(the source wraps `e` in `Error::ConfigError`). -/
def OvhClient.from_conf (loaded : Except String Conf) : Except String OvhClient :=
  match loaded with
  | .error e => .error e
  | .ok conf =>
    match conf "default" "endpoint" with
    | none => .error "missing key `endpoint`"
    | some endpoint =>
      match conf endpoint "application_key" with
      | none => .error "missing key `application_key`"
      | some application_key =>
        match conf endpoint "application_secret" with
        | none => .error "missing key `application_secret`"
        | some application_secret =>
          match conf endpoint "consumer_key" with
          | none => .error "missing key `consumer_key`"
          | some consumer_key =>
            match OvhClient.new endpoint application_key application_secret consumer_key with
            | none => .error "failed to create client"
            | some c => .ok c

/-! ### Signature (client.rs 180-191). -/

/-- Rust's `[&str]::join(sep)`. -/
def joinSep (sep : String) : List String → String
  | [] => ""
  | [x] => x
  | x :: xs => x ++ sep ++ joinSep sep xs

/-- The joined string the signature hashes, as a function of the six
fields, in the source's order. -/
def sigJoin (secret ck method url body timestamp : String) : String :=
  joinSep "+" [secret, ck, method, url, body, timestamp]

/-- `values.join("+")` of `OvhClient::signature`. -/
def OvhClient.sigPreimage (c : OvhClient) (url timestamp method body : String) : String :=
  sigJoin c.application_secret c.consumer_key method url body timestamp

/-- `OvhClient::signature` (client.rs 180-191). -/
def OvhClient.signature (c : OvhClient) (url timestamp method body : String) : String :=
  "$1$" ++ sha1HexStr (c.sigPreimage url timestamp method body)

/-- `OvhClient::url` (client.rs 193-195). -/
def OvhClient.url (c : OvhClient) (path : String) : String :=
  c.endpoint ++ path

/-! ### The environment of one request (network and clock). -/

/-- What the outside world supplies during one verb call: the body of the
`GET /auth/time` response (`none` when that network call or its body read
fails), the value `now()` returns inside `time_delta`, and the value
`now()` returns inside `gen_headers`. -/
structure World where
  serverResp : Option String
  now1 : Nat
  now2 : Nat

/-- `str::parse::<u64>`: an optional leading `+`, then one or more ASCII
digits, value at most `u64::MAX`. -/
def parseU64 (s : String) : Option Nat :=
  let l := match s.data with
    | '+' :: rest => rest
    | l => l
  if l = [] then none
  else if l.all (fun c => c.isDigit) then
    let v := l.foldl (fun a c => a * 10 + (c.toNat - 48)) 0
    if v < u64Mod then some v else none
  else none

/-- `OvhClient::time_delta` (client.rs 202-206): `get_noauth("/auth/time")`
(whose header construction panics on an invalid application key), `.text()`,
`.parse::<u64>()?`, then `(now() - server_time).try_into()?`. -/
def OvhClient.time_delta (c : OvhClient) (w : World) : Outcome Int :=
  if validHeaderValue c.application_key then
    (optErr w.serverResp).bind fun body =>
    (optErr (parseU64 body)).bind fun server_time =>
    optErr (i64OfU64 (u64SubWrap w.now1 server_time))
  else .panic

/-- `OvhClient::default_headers` (client.rs 208-215): the
`X-Ovh-Application` header, built with an unchecked `unwrap`. -/
def OvhClient.default_headers (c : OvhClient) : Outcome Headers :=
  if validHeaderValue c.application_key then
    .ok (headerInsert [] "X-Ovh-Application" c.application_key)
  else .panic

/-- `OvhClient::gen_headers` (client.rs 217-237). -/
def OvhClient.gen_headers (c : OvhClient) (w : World) (url method body : String) :
    Outcome Headers :=
  (c.default_headers).bind fun headers =>
  (c.time_delta w).bind fun delta =>
  (optErr (i64OfU64 (w.now2 % u64Mod))).bind fun nowI =>
  let timestamp := intDecString (i64AddWrap nowI delta)
  let sig := c.signature url timestamp method body
  (insert_sensitive_header headers "X-Ovh-Consumer" c.consumer_key).bind fun h2 =>
  (insert_sensitive_header h2 "X-Ovh-Timestamp" timestamp).bind fun h3 =>
  (insert_sensitive_header h3 "X-Ovh-Signature" sig).bind fun h4 =>
  .ok h4

/-! ### The verb operations (client.rs 240-320). -/

/-- The request a verb hands to the transport: the HTTP method actually
sent, the full URL, the headers, and the body, `none` when no body is set. -/
structure Request where
  httpMethod : String
  url : String
  headers : Headers
  body : Option String
deriving DecidableEq

/-- A header of the request of an `Ok` outcome. -/
def requestHeader (o : Outcome Request) (name : String) : Option String :=
  match o with
  | .ok r => headerGet r.headers name
  | _ => none

/-- `OvhClient::get` (client.rs 240-246). -/
def OvhClient.get (c : OvhClient) (w : World) (path : String) : Outcome Request :=
  let url := c.url path
  (c.gen_headers w url "GET" "").bind fun headers =>
  .ok { httpMethod := "GET", url, headers, body := none }

/-- `OvhClient::delete` (client.rs 249-258). -/
def OvhClient.delete (c : OvhClient) (w : World) (path : String) : Outcome Request :=
  let url := c.url path
  (c.gen_headers w url "DELETE" "").bind fun headers =>
  .ok { httpMethod := "DELETE", url, headers, body := none }

/-- `OvhClient::post` (client.rs 261-283).  `ser` is the result of
`serde_json::to_string(data)`: `none` when serialization fails (the `?` on
it), otherwise the single serialized body string, which the source uses
both for the signature and as the transmitted body. -/
def OvhClient.post (c : OvhClient) (w : World) (path : String) (ser : Option String) :
    Outcome Request :=
  let url := c.url path
  (optErr ser).bind fun body =>
  (c.gen_headers w url "POST" body).bind fun headers =>
  .ok { httpMethod := "POST", url,
        headers := headerInsert headers "Content-type" "application/json",
        body := some body }

/-- `OvhClient::put` (client.rs 286-308): signs with method string `"PUT"`
but then calls `self.client.post(url)`, so the transmitted verb is POST. -/
def OvhClient.put (c : OvhClient) (w : World) (path : String) (ser : Option String) :
    Outcome Request :=
  let url := c.url path
  (optErr ser).bind fun body =>
  (c.gen_headers w url "PUT" body).bind fun headers =>
  .ok { httpMethod := "POST", url,
        headers := headerInsert headers "Content-type" "application/json",
        body := some body }

/-- `OvhClient::get_noauth` (client.rs 311-320). -/
def OvhClient.get_noauth (c : OvhClient) (path : String) : Outcome Request :=
  let url := c.url path
  (c.default_headers).bind fun headers =>
  .ok { httpMethod := "GET", url, headers, body := none }

/-! ### The specification's reading of `time_delta`, for comparison. -/

/-- Modelled from the spec: "issues an unauthenticated GET to a fixed
server-time endpoint, parses the response body as an integer (server's
current Unix time in seconds), and returns `local_time − server_time` (as a
signed integer, seconds).  Fails if the network call fails, if the body is
not a valid integer, or if the subtraction overflows the target integer
width."  The subtraction is the mathematical one, checked against the
`i64` range. -/
def time_delta_specModel (resp : Option String) (localNow : Nat) : Option Int :=
  match resp with
  | none => none
  | some body =>
    match parseU64 body with
    | none => none
    | some server_time =>
      let d : Int := (localNow : Int) - (server_time : Int)
      if -(i64Lim : Int) ≤ d ∧ d < (i64Lim : Int) then some d else none

/-! ### Concrete clients, worlds and configurations used by the closed
theorems below. -/

/-- A registered client whose consumer key is the empty string. -/
def exClient6 : OvhClient :=
  { endpoint := "https://eu.api.ovh.com/1.0", application_key := "ak",
    application_secret := "sec", consumer_key := "" }

/-- A world where the server clock reads 100 and the local clock 150. -/
def exWorld : World := { serverResp := some "100", now1 := 150, now2 := 150 }

/-- A registered client whose application key holds a newline, a byte no
HTTP header value may contain. -/
def exClient10 : OvhClient :=
  { endpoint := "https://eu.api.ovh.com/1.0", application_key := "bad\nkey",
    application_secret := "sec", consumer_key := "ck" }

/-- A configuration map holding all four required keys. -/
def exConf : Conf := fun s k =>
  if s = "default" then (if k = "endpoint" then some "ovh-eu" else none)
  else if s = "ovh-eu" then
    (if k = "application_key" then some "ak"
     else if k = "application_secret" then some "sec"
     else if k = "consumer_key" then some "ck"
     else none)
  else none

/-- The four authenticated headers `gen_headers` produces, given the
timestamp string. -/
def authHeaders (c : OvhClient) (url method body ts : String) : Headers :=
  [("X-Ovh-Application", c.application_key),
   ("X-Ovh-Consumer", c.consumer_key),
   ("X-Ovh-Timestamp", ts),
   ("X-Ovh-Signature", c.signature url ts method body)]

/-- All five components of a SHA-1 state are 32-bit words. -/
def bounded5 (h : Nat × Nat × Nat × Nat × Nat) : Prop :=
  h.1 < w32 ∧ h.2.1 < w32 ∧ h.2.2.1 < w32 ∧ h.2.2.2.1 < w32 ∧ h.2.2.2.2 < w32

/-! ## Helper lemmas -/

theorem strAppendLeftCancel (p x y : String) (h : p ++ x = p ++ y) : x = y := by
  apply String.ext
  have hd := congrArg String.data h
  simp only [String.data_append] at hd
  exact List.append_cancel_left hd

theorem strAppendRightCancel (x y q : String) (h : x ++ q = y ++ q) : x = y := by
  apply String.ext
  have hd := congrArg String.data h
  simp only [String.data_append] at hd
  exact List.append_cancel_right hd

theorem strMidCancel (p q x y : String) (h : p ++ x ++ q = p ++ y ++ q) : x = y :=
  strAppendLeftCancel p x y (strAppendRightCancel (p ++ x) (p ++ y) q h)

theorem sigJoin_eq (s ck m u b t : String) :
    sigJoin s ck m u b t =
      s ++ "+" ++ ck ++ "+" ++ m ++ "+" ++ u ++ "+" ++ b ++ "+" ++ t := by
  apply String.ext
  simp [sigJoin, joinSep, String.data_append, List.append_assoc]

theorem sigJoin_shape_secret (s ck m u b t : String) :
    sigJoin s ck m u b t = "" ++ s ++ ("+" ++ ck ++ "+" ++ m ++ "+" ++ u ++ "+" ++ b ++ "+" ++ t) := by
  apply String.ext
  simp [sigJoin, joinSep, String.data_append, List.append_assoc]

theorem sigJoin_shape_ck (s ck m u b t : String) :
    sigJoin s ck m u b t = (s ++ "+") ++ ck ++ ("+" ++ m ++ "+" ++ u ++ "+" ++ b ++ "+" ++ t) := by
  apply String.ext
  simp [sigJoin, joinSep, String.data_append, List.append_assoc]

theorem sigJoin_shape_method (s ck m u b t : String) :
    sigJoin s ck m u b t = (s ++ "+" ++ ck ++ "+") ++ m ++ ("+" ++ u ++ "+" ++ b ++ "+" ++ t) := by
  apply String.ext
  simp [sigJoin, joinSep, String.data_append, List.append_assoc]

theorem sigJoin_shape_url (s ck m u b t : String) :
    sigJoin s ck m u b t = (s ++ "+" ++ ck ++ "+" ++ m ++ "+") ++ u ++ ("+" ++ b ++ "+" ++ t) := by
  apply String.ext
  simp [sigJoin, joinSep, String.data_append, List.append_assoc]

theorem sigJoin_shape_body (s ck m u b t : String) :
    sigJoin s ck m u b t = (s ++ "+" ++ ck ++ "+" ++ m ++ "+" ++ u ++ "+") ++ b ++ ("+" ++ t) := by
  apply String.ext
  simp [sigJoin, joinSep, String.data_append, List.append_assoc]

theorem sigJoin_shape_ts (s ck m u b t : String) :
    sigJoin s ck m u b t = (s ++ "+" ++ ck ++ "+" ++ m ++ "+" ++ u ++ "+" ++ b ++ "+") ++ t ++ "" := by
  apply String.ext
  simp [sigJoin, joinSep, String.data_append, List.append_assoc]

theorem lookup_isSome_iff (k : String) (l : List (String × String)) :
    (l.lookup k).isSome = true ↔ k ∈ l.map Prod.fst := by
  induction l with
  | nil => simp [List.lookup]
  | cons a l ih =>
    obtain ⟨k', v'⟩ := a
    by_cases hk : k = k'
    · subst hk
      simp [List.lookup]
    · have hb : (k == k') = false := beq_false_of_ne hk
      simp [List.lookup, hb, hk, ih]

theorem lookup_mem {l : List (String × String)} {k v : String}
    (h : l.lookup k = some v) : (k, v) ∈ l := by
  induction l with
  | nil => simp [List.lookup] at h
  | cons a l ih =>
    obtain ⟨k', v'⟩ := a
    by_cases hk : k = k'
    · subst hk
      simp [List.lookup] at h
      simp [h]
    · have hb : (k == k') = false := beq_false_of_ne hk
      simp [List.lookup, hb] at h
      exact List.mem_cons_of_mem _ (ih h)

theorem natDecCharsAux_ne_nil {fuel n : Nat} (hn : n ≠ 0) (hf : fuel ≠ 0) :
    natDecCharsAux fuel n ≠ [] := by
  match fuel with
  | 0 => exact absurd rfl hf
  | f + 1 => simp [natDecCharsAux, hn]

theorem intDecString_ne_empty (i : Int) : intDecString i ≠ "" := by
  have hnat : ∀ n : Nat, natDecString n ≠ "" := by
    intro n
    by_cases hn : n = 0
    · subst hn
      simp [natDecString]
    · intro h
      have hd := congrArg String.data h
      simp [natDecString, hn] at hd
      exact natDecCharsAux_ne_nil hn hn hd
  unfold intDecString
  split
  · intro h
    have hd := congrArg String.data h
    simp [String.data_append] at hd
  · exact hnat _

theorem i64AddWrap_eq (a b : Int) (h1 : -(i64Lim : Int) ≤ a + b)
    (h2 : a + b < (i64Lim : Int)) : i64AddWrap a b = a + b := by
  have hlim : (i64Lim : Int) = 9223372036854775808 := by norm_num [i64Lim]
  have hmod : ((u64Mod : Nat) : Int) = 18446744073709551616 := by norm_num [u64Mod]
  rw [hlim] at h1 h2
  unfold i64AddWrap
  rw [hlim, hmod]
  rw [Int.emod_eq_of_lt (by omega) (by omega)]
  omega

theorem parseU64_lt {body : String} {st : Nat} (h : parseU64 body = some st) :
    st < u64Mod := by
  simp only [parseU64] at h
  split at h
  · exact absurd h (by simp)
  · split at h
    · split at h
      · simp at h
        omega
      · exact absurd h (by simp)
    · exact absurd h (by simp)

@[simp]
theorem Outcome.ok_bind {α β : Type} (a : α) (f : α → Outcome β) :
    (Outcome.ok a).bind f = f a := rfl

@[simp]
theorem Outcome.err_bind {α β : Type} (f : α → Outcome β) :
    (Outcome.err : Outcome α).bind f = .err := rfl

@[simp]
theorem Outcome.panic_bind {α β : Type} (f : α → Outcome β) :
    (Outcome.panic : Outcome α).bind f = .panic := rfl

theorem bind_ok {α β : Type} {o : Outcome α} {f : α → Outcome β} {b : β}
    (h : o.bind f = .ok b) : ∃ a, o = .ok a ∧ f a = .ok b := by
  cases o with
  | panic => simp at h
  | err => simp at h
  | ok a => exact ⟨a, rfl, h⟩

theorem bind_panic_inv {α β : Type} {o : Outcome α} {f : α → Outcome β}
    (h : o.bind f = .panic) : o = .panic ∨ ∃ a, o = .ok a ∧ f a = .panic := by
  cases o with
  | panic => exact Or.inl rfl
  | err => simp at h
  | ok a => exact Or.inr ⟨a, rfl, h⟩

theorem optErr_ok {α : Type} {o : Option α} {a : α} (h : optErr o = .ok a) :
    o = some a := by
  cases o with
  | none => simp [optErr] at h
  | some x =>
    simp only [optErr, Outcome.ok.injEq] at h
    rw [h]

theorem optErr_ne_panic {α : Type} (o : Option α) : optErr o ≠ .panic := by
  cases o <;> simp [optErr]

theorem insert_ok {hs : Headers} {n v : String} {out : Headers}
    (h : insert_sensitive_header hs n v = .ok out) :
    validHeaderValue v = true ∧ out = headerInsert hs n v := by
  unfold insert_sensitive_header at h
  split at h
  · next hv =>
    simp only [Outcome.ok.injEq] at h
    exact ⟨hv, h.symm⟩
  · simp at h

theorem default_headers_ok {c : OvhClient} {hs : Headers}
    (h : c.default_headers = .ok hs) :
    validHeaderValue c.application_key = true ∧
      hs = [("X-Ovh-Application", c.application_key)] := by
  unfold OvhClient.default_headers at h
  split at h
  · next hv =>
    simp only [Outcome.ok.injEq] at h
    exact ⟨hv, h.symm⟩
  · exact absurd h (by simp)

theorem default_headers_of_hv {c : OvhClient}
    (hak : validHeaderValue c.application_key = true) :
    c.default_headers = .ok [("X-Ovh-Application", c.application_key)] := by
  unfold OvhClient.default_headers
  rw [hak]
  rfl

theorem default_headers_panic {c : OvhClient}
    (hv : validHeaderValue c.application_key = false) :
    c.default_headers = .panic := by
  unfold OvhClient.default_headers
  rw [hv]
  rfl

theorem hv_false_of_td_panic {c : OvhClient} {w : World}
    (h : c.time_delta w = .panic) : validHeaderValue c.application_key = false := by
  cases hv : validHeaderValue c.application_key
  · rfl
  · exfalso
    unfold OvhClient.time_delta at h
    rw [hv] at h
    simp only [if_true] at h
    rcases bind_panic_inv h with h1 | ⟨a, _, h2⟩
    · exact optErr_ne_panic _ h1
    · rcases bind_panic_inv h2 with h3 | ⟨a2, _, h4⟩
      · exact optErr_ne_panic _ h3
      · exact optErr_ne_panic _ h4

theorem hv_true_of_td_err {c : OvhClient} {w : World}
    (h : c.time_delta w = .err) : validHeaderValue c.application_key = true := by
  cases hv : validHeaderValue c.application_key
  · exfalso
    unfold OvhClient.time_delta at h
    rw [hv] at h
    simp at h
  · rfl

theorem td_ok_inv {c : OvhClient} {w : World} {d : Int}
    (h : c.time_delta w = .ok d) :
    validHeaderValue c.application_key = true ∧
      ∃ body st, w.serverResp = some body ∧ parseU64 body = some st ∧
        i64OfU64 (u64SubWrap w.now1 st) = some d := by
  cases hv : validHeaderValue c.application_key
  · exfalso
    unfold OvhClient.time_delta at h
    rw [hv] at h
    simp at h
  · refine ⟨rfl, ?_⟩
    unfold OvhClient.time_delta at h
    rw [hv] at h
    simp only [if_true] at h
    obtain ⟨body, hb, h⟩ := bind_ok h
    obtain ⟨st, hst, h⟩ := bind_ok h
    exact ⟨body, st, optErr_ok hb, optErr_ok hst, optErr_ok h⟩

theorem gen_headers_panic_of_hv {c : OvhClient} {w : World} {u m b : String}
    (hv : validHeaderValue c.application_key = false) :
    c.gen_headers w u m b = .panic := by
  simp [OvhClient.gen_headers, default_headers_panic hv]

theorem gen_headers_err_of_td {c : OvhClient} {w : World} {u m b : String}
    (h : c.time_delta w = .err) : c.gen_headers w u m b = .err := by
  have hak := hv_true_of_td_err h
  simp [OvhClient.gen_headers, default_headers_of_hv hak, h]

theorem gen_headers_ok {c : OvhClient} {w : World} {url method body : String} {hs : Headers}
    (h : c.gen_headers w url method body = .ok hs) :
    ∃ delta nowI, c.time_delta w = .ok delta ∧ i64OfU64 (w.now2 % u64Mod) = some nowI ∧
      hs = authHeaders c url method body (intDecString (i64AddWrap nowI delta)) := by
  unfold OvhClient.gen_headers at h
  obtain ⟨hs0, hdh, h⟩ := bind_ok h
  obtain ⟨hak, rfl⟩ := default_headers_ok hdh
  obtain ⟨delta, htd, h⟩ := bind_ok h
  obtain ⟨nowI, hnow, h⟩ := bind_ok h
  obtain ⟨h2, hi2, h⟩ := bind_ok h
  obtain ⟨h3, hi3, h⟩ := bind_ok h
  obtain ⟨h4, hi4, h⟩ := bind_ok h
  obtain ⟨_, rfl⟩ := insert_ok hi2
  obtain ⟨_, rfl⟩ := insert_ok hi3
  obtain ⟨_, rfl⟩ := insert_ok hi4
  simp only [Outcome.ok.injEq] at h
  refine ⟨delta, nowI, htd, optErr_ok hnow, ?_⟩
  rw [← h]
  rfl

theorem get_ok {c : OvhClient} {w : World} {path : String} {r : Request}
    (h : c.get w path = .ok r) :
    ∃ hs, c.gen_headers w (c.url path) "GET" "" = .ok hs ∧
      r = { httpMethod := "GET", url := c.url path, headers := hs, body := none } := by
  unfold OvhClient.get at h
  obtain ⟨hs, hgh, h⟩ := bind_ok h
  simp only [Outcome.ok.injEq] at h
  exact ⟨hs, hgh, h.symm⟩

theorem delete_ok {c : OvhClient} {w : World} {path : String} {r : Request}
    (h : c.delete w path = .ok r) :
    ∃ hs, c.gen_headers w (c.url path) "DELETE" "" = .ok hs ∧
      r = { httpMethod := "DELETE", url := c.url path, headers := hs, body := none } := by
  unfold OvhClient.delete at h
  obtain ⟨hs, hgh, h⟩ := bind_ok h
  simp only [Outcome.ok.injEq] at h
  exact ⟨hs, hgh, h.symm⟩

theorem post_ok {c : OvhClient} {w : World} {path s : String} {r : Request}
    (h : c.post w path (some s) = .ok r) :
    ∃ hs, c.gen_headers w (c.url path) "POST" s = .ok hs ∧
      r = { httpMethod := "POST", url := c.url path,
            headers := headerInsert hs "Content-type" "application/json",
            body := some s } := by
  unfold OvhClient.post at h
  obtain ⟨body, hbody, h⟩ := bind_ok h
  obtain ⟨rfl⟩ : body = s := by
    have := optErr_ok hbody
    simp at this
    exact this.symm
  obtain ⟨hs, hgh, h⟩ := bind_ok h
  simp only [Outcome.ok.injEq] at h
  exact ⟨hs, hgh, h.symm⟩

theorem put_ok {c : OvhClient} {w : World} {path s : String} {r : Request}
    (h : c.put w path (some s) = .ok r) :
    ∃ hs, c.gen_headers w (c.url path) "PUT" s = .ok hs ∧
      r = { httpMethod := "POST", url := c.url path,
            headers := headerInsert hs "Content-type" "application/json",
            body := some s } := by
  unfold OvhClient.put at h
  obtain ⟨body, hbody, h⟩ := bind_ok h
  obtain ⟨rfl⟩ : body = s := by
    have := optErr_ok hbody
    simp at this
    exact this.symm
  obtain ⟨hs, hgh, h⟩ := bind_ok h
  simp only [Outcome.ok.injEq] at h
  exact ⟨hs, hgh, h.symm⟩

theorem sha1Block_bounded (h : Nat × Nat × Nat × Nat × Nat) (ws : List Nat) :
    bounded5 (sha1Block h ws) := by
  refine ⟨?_, ?_, ?_, ?_, ?_⟩ <;> exact Nat.mod_lt _ (by norm_num [w32])

theorem foldl_sha1Block_bounded (blocks : List (List Nat))
    (init : Nat × Nat × Nat × Nat × Nat) (h : bounded5 init) :
    bounded5 (blocks.foldl sha1Block init) := by
  induction blocks generalizing init with
  | nil => exact h
  | cons b bs ih =>
    rw [List.foldl_cons]
    exact ih (sha1Block init b) (sha1Block_bounded init b)

theorem mulAddLt {a A b : Nat} (ha : a < A) (hb : b < w32) :
    a * w32 + b < A * w32 := by
  calc a * w32 + b < a * w32 + w32 := by omega
    _ = (a + 1) * w32 := by ring
    _ ≤ A * w32 := Nat.mul_le_mul_right w32 (by omega)

theorem sha1Nat_lt (msg : List Nat) : sha1Nat msg < 2 ^ 160 := by
  have hb := foldl_sha1Block_bounded (chunk16 (toWords (sha1Pad msg)))
    (1732584193, 4023233417, 2562383102, 271733878, 3285377520)
    (by norm_num [bounded5, w32])
  have key : ∀ t : Nat × Nat × Nat × Nat × Nat, bounded5 t →
      (((t.1 * w32 + t.2.1) * w32 + t.2.2.1) * w32 + t.2.2.2.1) * w32 + t.2.2.2.2
        < 2 ^ 160 := by
    rintro ⟨a, b, c, d, e⟩ ⟨h1, h2, h3, h4, h5⟩
    have hlt := mulAddLt (mulAddLt (mulAddLt (mulAddLt h1 h2) h3) h4) h5
    have hw : w32 * w32 * w32 * w32 * w32 = 2 ^ 160 := by norm_num [w32]
    calc _ < w32 * w32 * w32 * w32 * w32 := hlt
      _ = 2 ^ 160 := hw
  exact key _ hb

theorem get_noauth_ok {c : OvhClient} {path : String} {r : Request}
    (h : c.get_noauth path = .ok r) :
    r = { httpMethod := "GET", url := c.url path,
          headers := [("X-Ovh-Application", c.application_key)], body := none } := by
  unfold OvhClient.get_noauth at h
  obtain ⟨hs, hdh, h⟩ := bind_ok h
  obtain ⟨_, rfl⟩ := default_headers_ok hdh
  simp only [Outcome.ok.injEq] at h
  exact h.symm

theorem signature_ne_empty (c : OvhClient) (u t m b : String) :
    c.signature u t m b ≠ "" := by
  unfold OvhClient.signature
  intro h
  have hl := congrArg String.length h
  rw [String.length_append] at hl
  have h3 : ("$1$" : String).length = 3 := rfl
  have h0 : ("" : String).length = 0 := rfl
  rw [h3, h0] at hl
  omega

theorem i64OfU64_ok {n : Nat} {d : Int} (h : i64OfU64 n = some d) :
    d = (n : Int) ∧ n < i64Lim := by
  unfold i64OfU64 at h
  split at h
  · next hlt =>
    simp only [Option.some.injEq] at h
    exact ⟨h.symm, hlt⟩
  · simp at h

theorem td_eval {c : OvhClient} {w : World}
    (hak : validHeaderValue c.application_key = true) :
    c.time_delta w = (optErr w.serverResp).bind fun body =>
      (optErr (parseU64 body)).bind fun st =>
        optErr (i64OfU64 (u64SubWrap w.now1 st)) := by
  unfold OvhClient.time_delta
  rw [hak]
  rfl

/-! ## The claims -/

/-- Claim C1: for every application secret, consumer key, method, URL, body
and timestamp string, the computed signature is `"$1$"` followed by the
lowercase hex SHA-1 digest of
`secret + "+" + consumer_key + "+" + method + "+" + url + "+" + body + "+"
+ timestamp`, in that exact order with the literal `+` joiner; and the
spec's worked example joins to a preimage with a double `+` where the body
is empty. -/
theorem claim_C1 (c : OvhClient) (url timestamp method body : String) :
    c.signature url timestamp method body =
      "$1$" ++ sha1HexStr (c.application_secret ++ "+" ++ c.consumer_key ++ "+"
        ++ method ++ "+" ++ url ++ "+" ++ body ++ "+" ++ timestamp) ∧
    sigJoin "s3cr3t" "ck" "GET" "https://eu.api.ovh.com/1.0/auth/time" "" "1000"
      = "s3cr3t+ck+GET+https://eu.api.ovh.com/1.0/auth/time++1000" := by
  constructor
  · unfold OvhClient.signature OvhClient.sigPreimage
    rw [sigJoin_eq]
  · rfl

/-- Claim C2, counterexample: with the server one second ahead of the local
clock (server time 1000, local time 999), the claim's reading — the signed
difference, which is `-1` and fits `i64` — demands `Ok(-1)`
(`time_delta_specModel` returns `some (-1)`), but the code's unsigned
subtraction wraps and the `i64` conversion fails, so `time_delta` returns
an error. -/
theorem claim_C2_counterexample :
    exClient6.time_delta { serverResp := some "1000", now1 := 999, now2 := 999 } = .err ∧
    time_delta_specModel (some "1000") 999 = some (-1) := by
  constructor
  · rfl
  · rfl

/-- Claim C2, amended: `time_delta` parses the body as a `u64` and computes
`now() - server_time` as wrapping 64-bit subtraction checked into `i64`:
it returns the true difference exactly when `server_time ≤ now()` and the
difference is below `2 ^ 63`; it never returns a negative delta; it errors
when the network call fails, when the body is not a valid `u64`, and also
whenever the server clock is ahead of the local clock (by less than
`2 ^ 63`), even though the signed difference fits `i64`. -/
theorem claim_C2_amended (c : OvhClient) (w : World) :
    (∀ body st, validHeaderValue c.application_key = true →
        w.serverResp = some body → parseU64 body = some st →
        st ≤ w.now1 % u64Mod → w.now1 % u64Mod - st < i64Lim →
        c.time_delta w = .ok ((w.now1 % u64Mod - st : Nat) : Int)) ∧
    (∀ d, c.time_delta w = .ok d → 0 ≤ d) ∧
    (validHeaderValue c.application_key = true → w.serverResp = none →
        c.time_delta w = .err) ∧
    (∀ body, validHeaderValue c.application_key = true → w.serverResp = some body →
        parseU64 body = none → c.time_delta w = .err) ∧
    (∀ body st, validHeaderValue c.application_key = true →
        w.serverResp = some body → parseU64 body = some st →
        w.now1 % u64Mod < st → st - w.now1 % u64Mod < i64Lim →
        c.time_delta w = .err) := by
  refine ⟨?_, ?_, ?_, ?_, ?_⟩
  · intro body st hak hres hp hle hlt
    rw [td_eval hak, hres]
    have hstM : st < u64Mod := parseU64_lt hp
    have hw : u64SubWrap w.now1 st = w.now1 % u64Mod - st := by
      unfold u64SubWrap
      rw [Nat.mod_eq_of_lt hstM]
      have hnM : w.now1 % u64Mod < u64Mod := Nat.mod_lt _ (by norm_num [u64Mod])
      simp only [u64Mod] at *
      omega
    have hi : i64OfU64 (u64SubWrap w.now1 st) = some ((w.now1 % u64Mod - st : Nat) : Int) := by
      rw [hw]
      unfold i64OfU64
      rw [if_pos hlt]
    simp [optErr, hp, hi]
  · intro d hd
    obtain ⟨_, body, st, _, _, hi⟩ := td_ok_inv hd
    obtain ⟨rfl, _⟩ := i64OfU64_ok hi
    exact Int.natCast_nonneg _
  · intro hak hres
    rw [td_eval hak, hres]
    rfl
  · intro body hak hres hp
    rw [td_eval hak, hres]
    simp [optErr, hp]
  · intro body st hak hres hp hlt hd
    rw [td_eval hak, hres]
    have hstM : st < u64Mod := parseU64_lt hp
    have hw : u64SubWrap w.now1 st = w.now1 % u64Mod + u64Mod - st := by
      unfold u64SubWrap
      rw [Nat.mod_eq_of_lt hstM]
      have hnM : w.now1 % u64Mod < u64Mod := Nat.mod_lt _ (by norm_num [u64Mod])
      simp only [u64Mod] at *
      omega
    have hi : i64OfU64 (u64SubWrap w.now1 st) = none := by
      rw [hw]
      unfold i64OfU64
      rw [if_neg]
      have hnM : w.now1 % u64Mod < u64Mod := Nat.mod_lt _ (by norm_num [u64Mod])
      simp only [u64Mod, i64Lim] at *
      omega
    simp [optErr, hp, hi]

/-- Claim C3: `put(path, data)` signs with the method string `"PUT"` in the
signature preimage while the HTTP request actually transmitted uses POST:
for every successful `put`, the transmitted method is `"POST"` and the
signature header is the signature computed over method string `"PUT"`. -/
theorem claim_C3 (c : OvhClient) (w : World) (path s : String) :
    (∀ r, c.put w path (some s) = .ok r → r.httpMethod = "POST" ∧
        ∃ ts, headerGet r.headers "X-Ovh-Timestamp" = some ts ∧
          headerGet r.headers "X-Ovh-Signature" =
            some (c.signature (c.url path) ts "PUT" s)) ∧
    "PUT" ≠ "POST" := by
  refine ⟨?_, by decide⟩
  intro r h
  obtain ⟨hs, hgh, rfl⟩ := put_ok h
  obtain ⟨delta, nowI, _, _, rfl⟩ := gen_headers_ok hgh
  exact ⟨rfl, intDecString (i64AddWrap nowI delta), rfl, rfl⟩

/-- Claim C4: `Client::new` returns no client exactly when the endpoint
identifier is outside the seven-entry registry, and a client for every
identifier in it, whatever the three credential strings are; the client it
returns stores the registry's base URL and the three credentials
unchanged (the model is a pure function: construction does no I/O). -/
theorem claim_C4 (e k s ck : String) :
    ((OvhClient.new e k s ck).isSome = true ↔
      e ∈ (["ovh-eu", "ovh-us", "ovh-ca", "kimsufi-eu", "kimsufi-ca",
            "soyoustart-eu", "soyoustart-ca"] : List String)) ∧
    (∀ cl, OvhClient.new e k s ck = some cl →
      (e, cl.endpoint) ∈ ENDPOINTS ∧ cl.application_key = k ∧
        cl.application_secret = s ∧ cl.consumer_key = ck) := by
  constructor
  · have h1 : (OvhClient.new e k s ck).isSome = (endpointsGet e).isSome := by
      unfold OvhClient.new
      cases hep : endpointsGet e <;> simp [hep]
    rw [h1]
    unfold endpointsGet
    rw [lookup_isSome_iff]
    exact Iff.rfl
  · intro cl h
    unfold OvhClient.new at h
    cases hep : endpointsGet e with
    | none => rw [hep] at h; simp at h
    | some url =>
      rw [hep] at h
      simp only [Option.map_some', Option.some.injEq] at h
      have hm : (e, url) ∈ ENDPOINTS := lookup_mem (by simpa [endpointsGet] using hep)
      rw [← h]
      exact ⟨hm, rfl, rfl, rfl⟩

/-- Claim C5: with every required key present, `from_conf` builds exactly
the client direct construction builds from the same four values (and a
failure of direct construction surfaces as the configuration error
`failed to create client`); with a required key missing it fails with a
configuration error naming that key; a load failure propagates as the
loader's error. -/
theorem claim_C5 (conf : Conf) (e : String) :
    (∀ ep ak asec ck, conf "default" "endpoint" = some ep →
        conf ep "application_key" = some ak →
        conf ep "application_secret" = some asec →
        conf ep "consumer_key" = some ck →
        OvhClient.from_conf (.ok conf) =
          (match OvhClient.new ep ak asec ck with
            | some c => .ok c
            | none => .error "failed to create client")) ∧
    (conf "default" "endpoint" = none →
      OvhClient.from_conf (.ok conf) = .error "missing key `endpoint`") ∧
    (∀ ep, conf "default" "endpoint" = some ep →
      conf ep "application_key" = none →
      OvhClient.from_conf (.ok conf) = .error "missing key `application_key`") ∧
    (∀ ep ak, conf "default" "endpoint" = some ep →
      conf ep "application_key" = some ak →
      conf ep "application_secret" = none →
      OvhClient.from_conf (.ok conf) = .error "missing key `application_secret`") ∧
    (∀ ep ak asec, conf "default" "endpoint" = some ep →
      conf ep "application_key" = some ak →
      conf ep "application_secret" = some asec →
      conf ep "consumer_key" = none →
      OvhClient.from_conf (.ok conf) = .error "missing key `consumer_key`") ∧
    OvhClient.from_conf (.error e) = .error e := by
  refine ⟨?_, ?_, ?_, ?_, ?_, rfl⟩
  · intro ep ak asec ck h1 h2 h3 h4
    simp only [OvhClient.from_conf, h1, h2, h3, h4]
    cases OvhClient.new ep ak asec ck <;> rfl
  · intro h1
    simp only [OvhClient.from_conf, h1]
  · intro ep h1 h2
    simp only [OvhClient.from_conf, h1, h2]
  · intro ep ak h1 h2 h3
    simp only [OvhClient.from_conf, h1, h2, h3]
  · intro ep ak asec h1 h2 h3 h4
    simp only [OvhClient.from_conf, h1, h2, h3, h4]

set_option maxRecDepth 200000 in
/-- Claim C6, counterexample: the claim requires all four authenticated
headers to carry non-empty values, but `Client::new` accepts an empty
consumer key, and a `get` on such a client succeeds with an empty
`X-Ovh-Consumer` header value. -/
theorem claim_C6_counterexample :
    OvhClient.new "ovh-eu" "ak" "sec" "" = some exClient6 ∧
    (exClient6.get exWorld "/me").isOk = true ∧
    requestHeader (exClient6.get exWorld "/me") "X-Ovh-Consumer" = some "" := by
  refine ⟨rfl, rfl, rfl⟩

/-- Claim C6, amended: `get_noauth` attaches exactly the
`X-Ovh-Application` header and none of the three signature-related ones;
every successful `get`, `delete`, `post` or `put` attaches all four
authenticated headers, where the timestamp and signature values are always
non-empty, and the application and consumer values equal the stored
credential strings (so they are non-empty exactly when the credentials
are). -/
theorem claim_C6_amended (c : OvhClient) (w : World) (path s : String) :
    (∀ r, c.get_noauth path = .ok r →
        r.headers = [("X-Ovh-Application", c.application_key)] ∧
        headerGet r.headers "X-Ovh-Consumer" = none ∧
        headerGet r.headers "X-Ovh-Timestamp" = none ∧
        headerGet r.headers "X-Ovh-Signature" = none) ∧
    (∀ r, (c.get w path = .ok r ∨ c.delete w path = .ok r ∨
           c.post w path (some s) = .ok r ∨ c.put w path (some s) = .ok r) →
        headerGet r.headers "X-Ovh-Application" = some c.application_key ∧
        headerGet r.headers "X-Ovh-Consumer" = some c.consumer_key ∧
        (∃ ts, headerGet r.headers "X-Ovh-Timestamp" = some ts ∧ ts ≠ "") ∧
        (∃ sig, headerGet r.headers "X-Ovh-Signature" = some sig ∧ sig ≠ "")) := by
  constructor
  · intro r h
    obtain rfl := get_noauth_ok h
    exact ⟨rfl, rfl, rfl, rfl⟩
  · intro r h
    rcases h with h | h | h | h
    · obtain ⟨hs, hgh, rfl⟩ := get_ok h
      obtain ⟨delta, nowI, _, _, rfl⟩ := gen_headers_ok hgh
      exact ⟨rfl, rfl,
        ⟨intDecString (i64AddWrap nowI delta), rfl, intDecString_ne_empty _⟩,
        ⟨c.signature (c.url path) (intDecString (i64AddWrap nowI delta)) "GET" "",
          rfl, signature_ne_empty c _ _ _ _⟩⟩
    · obtain ⟨hs, hgh, rfl⟩ := delete_ok h
      obtain ⟨delta, nowI, _, _, rfl⟩ := gen_headers_ok hgh
      exact ⟨rfl, rfl,
        ⟨intDecString (i64AddWrap nowI delta), rfl, intDecString_ne_empty _⟩,
        ⟨c.signature (c.url path) (intDecString (i64AddWrap nowI delta)) "DELETE" "",
          rfl, signature_ne_empty c _ _ _ _⟩⟩
    · obtain ⟨hs, hgh, rfl⟩ := post_ok h
      obtain ⟨delta, nowI, _, _, rfl⟩ := gen_headers_ok hgh
      exact ⟨rfl, rfl,
        ⟨intDecString (i64AddWrap nowI delta), rfl, intDecString_ne_empty _⟩,
        ⟨c.signature (c.url path) (intDecString (i64AddWrap nowI delta)) "POST" s,
          rfl, signature_ne_empty c _ _ _ _⟩⟩
    · obtain ⟨hs, hgh, rfl⟩ := put_ok h
      obtain ⟨delta, nowI, _, _, rfl⟩ := gen_headers_ok hgh
      exact ⟨rfl, rfl,
        ⟨intDecString (i64AddWrap nowI delta), rfl, intDecString_ne_empty _⟩,
        ⟨c.signature (c.url path) (intDecString (i64AddWrap nowI delta)) "PUT" s,
          rfl, signature_ne_empty c _ _ _ _⟩⟩

/-- Claim C7: the body bytes signed are the body bytes sent.  Successful
`get` and `delete` requests carry no body and their signature header is
the signature over the empty-string body; successful `post` and `put`
requests carry exactly the one serialized string `s`, set
`Content-type: application/json`, and their signature header is the
signature over that same `s`; a failed serialization is an error. -/
theorem claim_C7 (c : OvhClient) (w : World) (path s : String) :
    (∀ r, c.get w path = .ok r → r.body = none ∧
        ∃ ts, headerGet r.headers "X-Ovh-Timestamp" = some ts ∧
          headerGet r.headers "X-Ovh-Signature" =
            some (c.signature (c.url path) ts "GET" "")) ∧
    (∀ r, c.delete w path = .ok r → r.body = none ∧
        ∃ ts, headerGet r.headers "X-Ovh-Timestamp" = some ts ∧
          headerGet r.headers "X-Ovh-Signature" =
            some (c.signature (c.url path) ts "DELETE" "")) ∧
    (∀ r, c.post w path (some s) = .ok r → r.body = some s ∧
        headerGet r.headers "Content-type" = some "application/json" ∧
        ∃ ts, headerGet r.headers "X-Ovh-Timestamp" = some ts ∧
          headerGet r.headers "X-Ovh-Signature" =
            some (c.signature (c.url path) ts "POST" s)) ∧
    (∀ r, c.put w path (some s) = .ok r → r.body = some s ∧
        headerGet r.headers "Content-type" = some "application/json" ∧
        ∃ ts, headerGet r.headers "X-Ovh-Timestamp" = some ts ∧
          headerGet r.headers "X-Ovh-Signature" =
            some (c.signature (c.url path) ts "PUT" s)) ∧
    c.post w path none = .err ∧ c.put w path none = .err := by
  refine ⟨?_, ?_, ?_, ?_, rfl, rfl⟩
  · intro r h
    obtain ⟨hs, hgh, rfl⟩ := get_ok h
    obtain ⟨delta, nowI, _, _, rfl⟩ := gen_headers_ok hgh
    exact ⟨rfl, intDecString (i64AddWrap nowI delta), rfl, rfl⟩
  · intro r h
    obtain ⟨hs, hgh, rfl⟩ := delete_ok h
    obtain ⟨delta, nowI, _, _, rfl⟩ := gen_headers_ok hgh
    exact ⟨rfl, intDecString (i64AddWrap nowI delta), rfl, rfl⟩
  · intro r h
    obtain ⟨hs, hgh, rfl⟩ := post_ok h
    obtain ⟨delta, nowI, _, _, rfl⟩ := gen_headers_ok hgh
    exact ⟨rfl, rfl, intDecString (i64AddWrap nowI delta), rfl, rfl⟩
  · intro r h
    obtain ⟨hs, hgh, rfl⟩ := put_ok h
    obtain ⟨delta, nowI, _, _, rfl⟩ := gen_headers_ok hgh
    exact ⟨rfl, rfl, intDecString (i64AddWrap nowI delta), rfl, rfl⟩

/-- Claim C8: every authenticated verb recomputes the delta through this
call's `time_delta` — when that call errors or panics, so does the verb,
whatever else the world holds — and on success the `X-Ovh-Timestamp`
header is exactly `local_now() + time_delta()` (64-bit sum) rendered in
decimal, where the sum is the plain mathematical one whenever it fits
`i64`. -/
theorem claim_C8 (c : OvhClient) (w : World) (path s : String) :
    (c.time_delta w = .err → c.get w path = .err ∧ c.delete w path = .err ∧
      c.post w path (some s) = .err ∧ c.put w path (some s) = .err) ∧
    (c.time_delta w = .panic → c.get w path = .panic ∧ c.delete w path = .panic ∧
      c.post w path (some s) = .panic ∧ c.put w path (some s) = .panic) ∧
    (∀ delta nowI r, c.time_delta w = .ok delta →
      i64OfU64 (w.now2 % u64Mod) = some nowI →
      (c.get w path = .ok r ∨ c.delete w path = .ok r ∨
        c.post w path (some s) = .ok r ∨ c.put w path (some s) = .ok r) →
      headerGet r.headers "X-Ovh-Timestamp" =
        some (intDecString (i64AddWrap nowI delta))) ∧
    (∀ a b : Int, -(i64Lim : Int) ≤ a + b → a + b < (i64Lim : Int) →
      i64AddWrap a b = a + b) := by
  refine ⟨?_, ?_, ?_, i64AddWrap_eq⟩
  · intro h
    have hg : ∀ u m b, c.gen_headers w u m b = .err := fun u m b => gen_headers_err_of_td h
    refine ⟨?_, ?_, ?_, ?_⟩ <;>
      simp [OvhClient.get, OvhClient.delete, OvhClient.post, OvhClient.put, optErr, hg]
  · intro h
    have hv := hv_false_of_td_panic h
    have hg : ∀ u m b, c.gen_headers w u m b = .panic := fun u m b => gen_headers_panic_of_hv hv
    refine ⟨?_, ?_, ?_, ?_⟩ <;>
      simp [OvhClient.get, OvhClient.delete, OvhClient.post, OvhClient.put, optErr, hg]
  · intro delta nowI r htd hnow h
    rcases h with h | h | h | h
    · obtain ⟨hs, hgh, rfl⟩ := get_ok h
      obtain ⟨delta2, nowI2, htd2, hnow2, rfl⟩ := gen_headers_ok hgh
      rw [htd] at htd2
      rw [hnow] at hnow2
      simp only [Outcome.ok.injEq] at htd2
      simp only [Option.some.injEq] at hnow2
      subst htd2
      subst hnow2
      rfl
    · obtain ⟨hs, hgh, rfl⟩ := delete_ok h
      obtain ⟨delta2, nowI2, htd2, hnow2, rfl⟩ := gen_headers_ok hgh
      rw [htd] at htd2
      rw [hnow] at hnow2
      simp only [Outcome.ok.injEq] at htd2
      simp only [Option.some.injEq] at hnow2
      subst htd2
      subst hnow2
      rfl
    · obtain ⟨hs, hgh, rfl⟩ := post_ok h
      obtain ⟨delta2, nowI2, htd2, hnow2, rfl⟩ := gen_headers_ok hgh
      rw [htd] at htd2
      rw [hnow] at hnow2
      simp only [Outcome.ok.injEq] at htd2
      simp only [Option.some.injEq] at hnow2
      subst htd2
      subst hnow2
      rfl
    · obtain ⟨hs, hgh, rfl⟩ := put_ok h
      obtain ⟨delta2, nowI2, htd2, hnow2, rfl⟩ := gen_headers_ok hgh
      rw [htd] at htd2
      rw [hnow] at hnow2
      simp only [Outcome.ok.injEq] at htd2
      simp only [Option.some.injEq] at hnow2
      subst htd2
      subst hnow2
      rfl

/-- Claim C9, counterexample: signatures cannot change for every
single-field change: the preimages range over infinitely many strings
while SHA-1 digests are 160-bit values, so two distinct bodies (all other
five fields fixed) share a signature. -/
theorem claim_C9_counterexample :
    ∃ b b' : String, b ≠ b' ∧
      exClient6.signature "https://eu.api.ovh.com/1.0/auth/time" "1000" "GET" b =
        exClient6.signature "https://eu.api.ovh.com/1.0/auth/time" "1000" "GET" b' := by
  haveI : Infinite String :=
    Infinite.of_injective (fun n : Nat => String.mk (List.replicate n 'a'))
      (by intro a b hab; simpa using congrArg (fun s => s.data.length) hab)
  obtain ⟨b, b', hne, heq⟩ := Finite.exists_ne_map_eq_of_infinite
    (fun b : String => (⟨sha1Nat (utf8Bytes (exClient6.sigPreimage
        "https://eu.api.ovh.com/1.0/auth/time" "1000" "GET" b)),
      sha1Nat_lt _⟩ : Fin (2 ^ 160)))
  refine ⟨b, b', hne, ?_⟩
  have hval : sha1Nat (utf8Bytes (exClient6.sigPreimage
        "https://eu.api.ovh.com/1.0/auth/time" "1000" "GET" b))
      = sha1Nat (utf8Bytes (exClient6.sigPreimage
        "https://eu.api.ovh.com/1.0/auth/time" "1000" "GET" b')) :=
    congrArg Fin.val heq
  unfold OvhClient.signature sha1HexStr
  rw [hval]

/-- Claim C9, amended: signature computation is deterministic — it is a
pure function of exactly the six fields (secret, consumer key, method,
URL, body, timestamp), so equal inputs give bit-identical output — and
changing exactly one field (the other five fixed) always changes the
hashed preimage string; the signatures then differ whenever SHA-1 differs
on the two preimages, which cannot hold universally (see the
counterexample) but holds in the absence of a SHA-1 collision. -/
theorem claim_C9_amended (c : OvhClient) (u t m b : String) :
    (∀ (c' : OvhClient) (u' t' m' b' : String),
        c'.application_secret = c.application_secret →
        c'.consumer_key = c.consumer_key → u' = u → t' = t → m' = m → b' = b →
        c'.signature u' t' m' b' = c.signature u t m b) ∧
    (∀ x y, x ≠ y → sigJoin x c.consumer_key m u b t ≠
        sigJoin y c.consumer_key m u b t) ∧
    (∀ x y, x ≠ y → sigJoin c.application_secret x m u b t ≠
        sigJoin c.application_secret y m u b t) ∧
    (∀ x y, x ≠ y → sigJoin c.application_secret c.consumer_key x u b t ≠
        sigJoin c.application_secret c.consumer_key y u b t) ∧
    (∀ x y, x ≠ y → sigJoin c.application_secret c.consumer_key m x b t ≠
        sigJoin c.application_secret c.consumer_key m y b t) ∧
    (∀ x y, x ≠ y → sigJoin c.application_secret c.consumer_key m u x t ≠
        sigJoin c.application_secret c.consumer_key m u y t) ∧
    (∀ x y, x ≠ y → sigJoin c.application_secret c.consumer_key m u b x ≠
        sigJoin c.application_secret c.consumer_key m u b y) := by
  refine ⟨?_, ?_, ?_, ?_, ?_, ?_, ?_⟩
  · intro c' u' t' m' b' h1 h2 h3 h4 h5 h6
    unfold OvhClient.signature OvhClient.sigPreimage
    rw [h1, h2, h3, h4, h5, h6]
  · intro x y hxy hcon
    rw [sigJoin_shape_secret, sigJoin_shape_secret] at hcon
    exact hxy (strMidCancel _ _ _ _ hcon)
  · intro x y hxy hcon
    rw [sigJoin_shape_ck, sigJoin_shape_ck] at hcon
    exact hxy (strMidCancel _ _ _ _ hcon)
  · intro x y hxy hcon
    rw [sigJoin_shape_method, sigJoin_shape_method] at hcon
    exact hxy (strMidCancel _ _ _ _ hcon)
  · intro x y hxy hcon
    rw [sigJoin_shape_url, sigJoin_shape_url] at hcon
    exact hxy (strMidCancel _ _ _ _ hcon)
  · intro x y hxy hcon
    rw [sigJoin_shape_body, sigJoin_shape_body] at hcon
    exact hxy (strMidCancel _ _ _ _ hcon)
  · intro x y hxy hcon
    rw [sigJoin_shape_ts, sigJoin_shape_ts] at hcon
    exact hxy (strMidCancel _ _ _ _ hcon)

/-- Claim C10: header construction is not total over constructible
clients: `Client::new` accepts an application key containing a newline —
a character `HeaderValue::from_str` rejects — and then every request
operation panics at the unchecked `unwrap` instead of returning the typed
error value. -/
theorem claim_C10 :
    (OvhClient.new "ovh-eu" "bad\nkey" "sec" "ck").isSome = true ∧
    ∀ cl, OvhClient.new "ovh-eu" "bad\nkey" "sec" "ck" = some cl →
      ∀ (w : World) (path s : String),
        cl.get w path = .panic ∧ cl.delete w path = .panic ∧
        cl.post w path (some s) = .panic ∧ cl.put w path (some s) = .panic ∧
        cl.get_noauth path = .panic ∧ cl.time_delta w = .panic := by
  refine ⟨rfl, ?_⟩
  intro cl h w path s
  have h2 : some exClient10 = some cl := h
  simp only [Option.some.injEq] at h2
  subst h2
  have hv : validHeaderValue exClient10.application_key = false := by decide
  have hg : ∀ u m b, exClient10.gen_headers w u m b = .panic :=
    fun u m b => gen_headers_panic_of_hv hv
  refine ⟨?_, ?_, ?_, ?_, ?_, ?_⟩
  · simp [OvhClient.get, hg]
  · simp [OvhClient.delete, hg]
  · simp [OvhClient.post, optErr, hg]
  · simp [OvhClient.put, optErr, hg]
  · simp [OvhClient.get_noauth, default_headers_panic hv]
  · simp [OvhClient.time_delta, hv]

/-! ## Sanity checks: the success paths of the model are reachable, and the
SHA-1 model matches the FIPS 180-1 test vector. -/

set_option maxRecDepth 200000 in
theorem sha1HexStr_abc :
    sha1HexStr "abc" = "a9993e364706816aba3e25717850c26c9cd0d89d" := by decide

theorem from_conf_exConf : OvhClient.from_conf (.ok exConf) = .ok
    { endpoint := "https://eu.api.ovh.com/1.0", application_key := "ak",
      application_secret := "sec", consumer_key := "ck" } := rfl

theorem time_delta_exWorld : exClient6.time_delta exWorld = .ok 50 := rfl

set_option maxRecDepth 200000 in
theorem post_exWorld_ok : (exClient6.post exWorld "/me" (some "null")).isOk = true := rfl

end Ovh

